import Mathlib

/-!
Verification of the playback supervisor in `stream_manager.py` of
`yt_restream_apps`.

The worker loop `StreamManager._stream_worker` is embedded as a per-cycle
step function `cycle` over an explicit worker state `WState`.  External
effects (the playlist resolver, the media locator, the transcode process,
commands arriving during live monitoring, and exceptions) are supplied by a
per-cycle environment `CycleEnv`.  Each cycle produces the successor state,
a trace of observable events paired with the value of the readiness flag
right after each event, and a flag saying whether the `while` loop exited.
-/

/-- Commands carried by the command queue (`self.command_queue`):
`"next"`, `"prev"`, `("skip", n)` with 1-based `n`, and `"stop"`. -/
inductive Cmd where
  | next
  | prev
  | skip (n : Nat)
  | stop
deriving DecidableEq

/-- How the live-monitoring loop (lines 349-359) ends: the process exits on
its own (`poll()` not `None`), the stop event is observed set, or a command
is observed in the queue. -/
inductive MonitorEnd where
  | naturalExit
  | stopDetected
  | cmdDetected
deriving DecidableEq

/-- Points inside the `try` block at which the environment may raise an
exception: during `_get_media_url`, during `_wait_for_stream`, or during
live monitoring. -/
inductive EPhase where
  | mediaPh
  | waitPh
  | monitorPh
deriving DecidableEq

/-- Observable events of one worker cycle. -/
inductive Ev where
  | drained (c : Cmd)
  | slept (n : Nat)
  | cleanedDir
  | clearedReady
  | launched
  | setReady
  | procTerminated
  | procExited
  | excCaught
  | exitReadySet
deriving DecidableEq

/-- Mutable worker state: `self.playlist`, `self.current_index`,
`self.stream_ready`, `self.ffmpeg_proc` (held handle or not),
`self.command_queue` contents, `self.stop_event`. -/
structure WState where
  playlist : List String
  currentIndex : Int
  ready : Bool
  proc : Bool
  queue : List Cmd
  stopEvent : Bool
deriving DecidableEq

/-- External behaviour during one cycle: the playlist resolver's result
(used only when the playlist is empty), the media locator's two results
(`None` on failure; Python also treats `""` as missing), whether
`_wait_for_stream` succeeds, how live monitoring ends, commands enqueued
while monitoring, and an optional exception point. -/
structure CycleEnv where
  resolved : List String
  mediaV : Option String
  mediaA : Option String
  startupOk : Bool
  monitor : MonitorEnd
  arrivals : List Cmd
  excPhase : Option EPhase
deriving DecidableEq

/-- Result of one worker cycle. -/
structure CycleRes where
  state : WState
  trace : List (Ev × Bool)
  exited : Bool
deriving DecidableEq

/-- Python falsiness of an optional string result of `_get_media_url`:
`not video_url` holds for `None` and for the empty string. -/
def optFalsy : Option String → Bool
  | none => true
  | some s => s.isEmpty

/-- Index normalization, lines 314-321: if the index is outside
`[0, len)`, an index `>= len` wraps to `0` and a negative index wraps to
`len - 1`. -/
def normIndex (i : Int) (len : Nat) : Int :=
  if 0 ≤ i ∧ i < (len : Int) then i
  else if (len : Int) ≤ i then 0
  else if i < 0 then (len : Int) - 1
  else i

/-- Effect of a drained command on `self.current_index` (lines 283-297):
`skip n` sets the index to `n - 1`, `next` adds one, `prev` subtracts one.
`stop` never reaches the index logic (it breaks out of the loop first). -/
def applyCmd (i : Int) : Cmd → Int
  | Cmd.next => i + 1
  | Cmd.prev => i - 1
  | Cmd.skip n => (n : Int) - 1
  | Cmd.stop => i

/-- The `finally` block, lines 366-381: the process handle is dropped; if
no command drove the cycle, the queue is empty and no stop is pending, the
index auto-advances by one; if the queue is empty the worker sleeps 3s.
When the cycle is exiting the loop (`stop` drained), line 383 then forces
the readiness flag true. -/
def finallyBlock (s : WState) (command : Option Cmd) (tr : List (Ev × Bool))
    (exiting : Bool) : CycleRes :=
  let s2 : WState :=
    if command = none ∧ s.queue = [] ∧ s.stopEvent = false then
      { s with proc := false, currentIndex := s.currentIndex + 1 }
    else { s with proc := false }
  let tr2 : List (Ev × Bool) :=
    if s.queue = [] then tr ++ [(Ev.slept 3, s.ready)] else tr
  if exiting = true then
    { state := { s2 with ready := true },
      trace := tr2 ++ [(Ev.exitReadySet, true)], exited := true }
  else
    { state := s2, trace := tr2, exited := false }

/-- The `except` handler, lines 361-364: the exception is caught, the
active process (if any) is terminated, the worker sleeps 10s, then the
`finally` block runs. -/
def exceptBlock (s : WState) (command : Option Cmd)
    (tr : List (Ev × Bool)) : CycleRes :=
  let tr1 := tr ++ [(Ev.excCaught, s.ready)]
  let tr2 := if s.proc = true then tr1 ++ [(Ev.procTerminated, s.ready)] else tr1
  finallyBlock s command (tr2 ++ [(Ev.slept 10, s.ready)]) false

/-- Live monitoring, lines 349-359: commands arriving during monitoring
land in the queue; the loop ends by natural process exit, or by explicit
termination after observing the stop event or a queued command. -/
def stageMonitor (s : WState) (e : CycleEnv) (command : Option Cmd)
    (tr : List (Ev × Bool)) : CycleRes :=
  let s1 : WState := { s with queue := s.queue ++ e.arrivals }
  match e.monitor with
  | MonitorEnd.naturalExit =>
      finallyBlock s1 command (tr ++ [(Ev.procExited, s.ready)]) false
  | MonitorEnd.stopDetected =>
      finallyBlock { s1 with stopEvent := true } command
        (tr ++ [(Ev.procTerminated, s.ready)]) false
  | MonitorEnd.cmdDetected =>
      finallyBlock s1 command (tr ++ [(Ev.procTerminated, s.ready)]) false

/-- Lines 333-347: clean the HLS directory, clear the readiness flag,
launch ffmpeg, await startup.  On startup failure the process is terminated
and the cycle is marked `next`; on success the readiness flag is set and
monitoring begins. -/
def stageStart (s : WState) (e : CycleEnv) (command : Option Cmd)
    (tr : List (Ev × Bool)) : CycleRes :=
  let s1 : WState := { s with ready := false, proc := true }
  let tr1 := tr ++ [(Ev.cleanedDir, s.ready), (Ev.clearedReady, false),
    (Ev.launched, false)]
  if e.excPhase = some EPhase.waitPh then exceptBlock s1 command tr1
  else if e.startupOk = true then
    let s2 : WState := { s1 with ready := true }
    let tr2 := tr1 ++ [(Ev.setReady, true)]
    if e.excPhase = some EPhase.monitorPh then exceptBlock s2 command tr2
    else stageMonitor s2 e command tr2
  else
    finallyBlock s1 (some Cmd.next)
      (tr1 ++ [(Ev.procTerminated, false)]) false

/-- Lines 327-331: resolve media for the current video.  If either source
is missing the cycle-local `command` variable is set to `'next'` and the
cycle jumps to the `finally` block without starting a process. -/
def stageMedia (s : WState) (e : CycleEnv) (command : Option Cmd)
    (tr : List (Ev × Bool)) : CycleRes :=
  if e.excPhase = some EPhase.mediaPh then exceptBlock s command tr
  else if optFalsy e.mediaV = true ∨ optFalsy e.mediaA = true then
    finallyBlock s (some Cmd.next) tr false
  else stageStart s e command tr

/-- Lines 314-321 applied in place: the worker normalizes the index before
selecting the page URL. -/
def stageNorm (s : WState) (e : CycleEnv) (command : Option Cmd)
    (tr : List (Ev × Bool)) : CycleRes :=
  stageMedia { s with currentIndex := normIndex s.currentIndex s.playlist.length }
    e command tr

/-- Lines 300-312: if the playlist is empty it is re-resolved; an empty
result sleeps 60s and restarts the cycle (via `finally`); on the first
successful load (`current_index == -1`) the index is set to 0. -/
def stagePlaylist (s : WState) (e : CycleEnv) (command : Option Cmd)
    (tr : List (Ev × Bool)) : CycleRes :=
  if s.playlist = [] then
    if e.resolved = [] then
      finallyBlock s command (tr ++ [(Ev.slept 60, s.ready)]) false
    else
      let s1 : WState := { s with playlist := e.resolved }
      let s2 : WState :=
        if s1.currentIndex = -1 then { s1 with currentIndex := 0 } else s1
      stageNorm s2 e command tr
  else stageNorm s e command tr

/-- One iteration of the worker loop `_stream_worker` (lines 273-383),
including the `while` condition: with the stop event set the loop exits and
readiness is forced true; otherwise one command is drained (a drained
`stop` breaks out through `finally`), and the cycle proceeds through
playlist resolution, normalization, media resolution, process startup, and
live monitoring. -/
def cycle (s : WState) (e : CycleEnv) : CycleRes :=
  if s.stopEvent = true then
    { state := { s with ready := true },
      trace := [(Ev.exitReadySet, true)], exited := true }
  else
    match s.queue with
    | [] => stagePlaylist s e none []
    | Cmd.stop :: rest =>
        finallyBlock { s with queue := rest } none
          [(Ev.drained Cmd.stop, s.ready)] true
    | c :: rest =>
        stagePlaylist
          { s with queue := rest, currentIndex := applyCmd s.currentIndex c }
          e (some c) [(Ev.drained c, s.ready)]

/-- Events of a cycle result, without the readiness annotations. -/
def evsOf (r : CycleRes) : List Ev := r.trace.map Prod.fst

/-- A quality preset: yt-dlp format selector, output resolution, video
bitrate. -/
structure Preset where
  format : String
  resolution : String
  bitrate : String
deriving DecidableEq

/-- The `QUALITY_PRESETS` table, lines 15-32. -/
def QUALITY_PRESETS : List (String × Preset) :=
  [("1080p", ⟨"bestvideo[height<=1080]+bestaudio/best[height<=1080]",
      "1920x1080", "4000k"⟩),
   ("720p", ⟨"bestvideo[height<=720]+bestaudio/best[height<=720]",
      "1280x720", "2500k"⟩),
   ("480p", ⟨"bestvideo[height<=480]+bestaudio/best[height<=480]",
      "854x480", "1000k"⟩),
   ("360p", ⟨"bestvideo[height<=360]+bestaudio/best[height<=360]",
      "640x360", "700k"⟩)]

/-- Dictionary lookup `QUALITY_PRESETS[key]` as a partial lookup. -/
def lookupPreset (key : String) : Option Preset :=
  (QUALITY_PRESETS.find? (fun p => p.1 == key)).map Prod.snd

/-- The `self.config` dictionary built in `StreamManager.__init__`. -/
structure StreamConfig where
  url : String
  format : String
  resolution : String
  bitrate : String
deriving DecidableEq

/-- Lines 53-60 of `StreamManager.__init__`: an unknown quality key is
replaced by `"720p"` (with a warning), then the chosen preset is merged
with the URL into `self.config`.  The fallback entry of the `match` is
unreachable because `"720p"` is in the table. -/
def initConfig (url : String) (quality_key : String) : StreamConfig :=
  let key := if (lookupPreset quality_key).isSome then quality_key else "720p"
  match lookupPreset key with
  | some p =>
      { url := url, format := p.format, resolution := p.resolution,
        bitrate := p.bitrate }
  | none => { url := url, format := "", resolution := "", bitrate := "" }

/-- One polling iteration's filesystem and process observations inside
`_wait_for_stream`: manifest exists and is non-empty, first chunk exists
and is non-empty, `poll()` reports the process exited. -/
structure Obs where
  m3u8 : Bool
  ts : Bool
  procExited : Bool
deriving DecidableEq

/-- The polling loop of `_wait_for_stream`, lines 235-258, over the finite
list of iterations that fit in the timeout window (the empty list is the
timeout).  The sticky flags `m`/`t` are `m3u8_ready`/`ts_ready`; within one
iteration the two-file check precedes the process-exit check. -/
def waitLoop : Bool → Bool → List Obs → Bool
  | _, _, [] => false
  | m, t, o :: rest =>
    let m1 := m || o.m3u8
    let t1 := t || o.ts
    if m1 && t1 then true
    else if o.procExited then false
    else waitLoop m1 t1 rest

/-- `_wait_for_stream` starts with both sticky flags unset. -/
def wait_for_stream (obs : List Obs) : Bool := waitLoop false false obs

/-- Events at which the readiness flag may legitimately become true: a
successful startup probe (`stream_ready.set()`, line 345) and the forced
set on worker exit (line 383). -/
def isReadyRise : Ev → Bool
  | Ev.setReady => true
  | Ev.exitReadySet => true
  | _ => false

/-- A trace respects the readiness discipline when the readiness flag never
goes from false to true except at a `setReady` or `exitReadySet` event.
The first argument is the readiness value before the trace. -/
def noSpuriousRise : Bool → List (Ev × Bool) → Bool
  | _, [] => true
  | r, (ev, r1) :: rest => ((!(!r && r1)) || isReadyRise ev) && noSpuriousRise r1 rest

/-- Readiness value after a trace (first argument: value before it). -/
def lastReady : Bool → List (Ev × Bool) → Bool
  | r, [] => r
  | _, (_, r1) :: rest => lastReady r1 rest

/-- A trace entry is a launch only with readiness false. -/
def launchOk (p : Ev × Bool) : Bool :=
  match p.1 with
  | Ev.launched => !p.2
  | _ => true

/-- Every process launch in the trace happens with readiness false. -/
def launchedNotReady (tr : List (Ev × Bool)) : Bool := tr.all launchOk


/-! ## Structural lemmas -/

theorem finallyBlock_exited (s : WState) (c : Option Cmd)
    (tr : List (Ev × Bool)) (ex : Bool) :
    (finallyBlock s c tr ex).exited = ex := by
  unfold finallyBlock
  split <;> split <;> split <;> simp_all

theorem exceptBlock_exited (s : WState) (c : Option Cmd)
    (tr : List (Ev × Bool)) :
    (exceptBlock s c tr).exited = false := by
  unfold exceptBlock
  exact finallyBlock_exited ..

theorem stageMonitor_exited (s : WState) (e : CycleEnv) (c : Option Cmd)
    (tr : List (Ev × Bool)) :
    (stageMonitor s e c tr).exited = false := by
  unfold stageMonitor
  cases e.monitor <;> simp [finallyBlock_exited]

theorem stageStart_exited (s : WState) (e : CycleEnv) (c : Option Cmd)
    (tr : List (Ev × Bool)) :
    (stageStart s e c tr).exited = false := by
  unfold stageStart
  split
  · exact exceptBlock_exited ..
  · split
    · split
      · exact exceptBlock_exited ..
      · exact stageMonitor_exited ..
    · exact finallyBlock_exited ..

theorem stageMedia_exited (s : WState) (e : CycleEnv) (c : Option Cmd)
    (tr : List (Ev × Bool)) :
    (stageMedia s e c tr).exited = false := by
  unfold stageMedia
  split
  · exact exceptBlock_exited ..
  · split
    · exact finallyBlock_exited ..
    · exact stageStart_exited ..

theorem stageNorm_exited (s : WState) (e : CycleEnv) (c : Option Cmd)
    (tr : List (Ev × Bool)) :
    (stageNorm s e c tr).exited = false := by
  unfold stageNorm
  exact stageMedia_exited ..

theorem stagePlaylist_exited (s : WState) (e : CycleEnv) (c : Option Cmd)
    (tr : List (Ev × Bool)) :
    (stagePlaylist s e c tr).exited = false := by
  unfold stagePlaylist
  split
  · split
    · exact finallyBlock_exited ..
    · exact stageNorm_exited ..
  · exact stageNorm_exited ..

theorem finallyBlock_ready_exit (s : WState) (c : Option Cmd)
    (tr : List (Ev × Bool)) :
    (finallyBlock s c tr true).state.ready = true := by
  unfold finallyBlock
  split <;> simp_all

theorem ext_chain {r : CycleRes} {tr seg : List (Ev × Bool)}
    (h : ∃ tl, r.trace = (tr ++ seg) ++ tl) : ∃ tl, r.trace = tr ++ tl := by
  obtain ⟨tl, h⟩ := h
  exact ⟨seg ++ tl, by rw [h, List.append_assoc]⟩

theorem finallyBlock_trace_ext (s : WState) (c : Option Cmd)
    (tr : List (Ev × Bool)) (ex : Bool) :
    ∃ tl, (finallyBlock s c tr ex).trace = tr ++ tl := by
  unfold finallyBlock
  split <;> split <;> split <;> simp_all

theorem exceptBlock_trace_ext (s : WState) (c : Option Cmd)
    (tr : List (Ev × Bool)) :
    ∃ tl, (exceptBlock s c tr).trace = tr ++ tl := by
  unfold exceptBlock
  dsimp only
  split
  · exact ext_chain (ext_chain (ext_chain (finallyBlock_trace_ext ..)))
  · exact ext_chain (ext_chain (finallyBlock_trace_ext ..))

theorem stageMonitor_trace_ext (s : WState) (e : CycleEnv) (c : Option Cmd)
    (tr : List (Ev × Bool)) :
    ∃ tl, (stageMonitor s e c tr).trace = tr ++ tl := by
  unfold stageMonitor
  dsimp only
  cases e.monitor <;> exact ext_chain (finallyBlock_trace_ext ..)

theorem stageStart_trace_ext (s : WState) (e : CycleEnv) (c : Option Cmd)
    (tr : List (Ev × Bool)) :
    ∃ tl, (stageStart s e c tr).trace = tr ++ tl := by
  unfold stageStart
  dsimp only
  split
  · exact ext_chain (exceptBlock_trace_ext ..)
  · split
    · split
      · exact ext_chain (ext_chain (exceptBlock_trace_ext ..))
      · exact ext_chain (ext_chain (stageMonitor_trace_ext ..))
    · exact ext_chain (ext_chain (finallyBlock_trace_ext ..))

theorem stageMedia_trace_ext (s : WState) (e : CycleEnv) (c : Option Cmd)
    (tr : List (Ev × Bool)) :
    ∃ tl, (stageMedia s e c tr).trace = tr ++ tl := by
  unfold stageMedia
  split
  · exact exceptBlock_trace_ext ..
  · split
    · exact finallyBlock_trace_ext ..
    · exact stageStart_trace_ext ..

theorem stageNorm_trace_ext (s : WState) (e : CycleEnv) (c : Option Cmd)
    (tr : List (Ev × Bool)) :
    ∃ tl, (stageNorm s e c tr).trace = tr ++ tl := by
  unfold stageNorm
  exact stageMedia_trace_ext ..

theorem stagePlaylist_trace_ext (s : WState) (e : CycleEnv) (c : Option Cmd)
    (tr : List (Ev × Bool)) :
    ∃ tl, (stagePlaylist s e c tr).trace = tr ++ tl := by
  unfold stagePlaylist
  dsimp only
  split
  · split
    · exact ext_chain (finallyBlock_trace_ext ..)
    · exact stageNorm_trace_ext ..
  · exact stageNorm_trace_ext ..

/-! ## Claim theorems -/

/-- C1: evaluation of the worker cycle at the claim's failing input: with
playlist `[A, B, C]`, current index 1 and an empty command queue, a media
locator failure (both sources `None`) launches no transcode process and
does not exit the loop, but the current index stays 1 instead of advancing
to 2 — the cycle-local `command = 'next'` assignment suppresses the
`finally` auto-advance that the code's own comment promises. -/
theorem c1_media_failure_eval :
    (cycle ⟨["A", "B", "C"], 1, true, false, [], false⟩
        ⟨[], none, none, true, MonitorEnd.naturalExit, [], none⟩).state.currentIndex = 1 ∧
    Ev.launched ∉ evsOf (cycle ⟨["A", "B", "C"], 1, true, false, [], false⟩
        ⟨[], none, none, true, MonitorEnd.naturalExit, [], none⟩) ∧
    (cycle ⟨["A", "B", "C"], 1, true, false, [], false⟩
        ⟨[], none, none, true, MonitorEnd.naturalExit, [], none⟩).exited = false := by
  decide

/-- C2: evaluation of the worker cycle at the claim's failing input: with
an empty playlist, index -1 and an empty queue, an empty resolver result
does sleep the 60s backoff and keeps the loop running, but the `continue`
still runs the `finally` block, which auto-advances the index from -1 to 0
(and sleeps another 3s) — the index state is not left unchanged. -/
theorem c2_empty_playlist_eval :
    (cycle ⟨[], -1, false, false, [], false⟩
        ⟨[], none, none, true, MonitorEnd.naturalExit, [], none⟩).state.currentIndex = 0 ∧
    Ev.slept 60 ∈ evsOf (cycle ⟨[], -1, false, false, [], false⟩
        ⟨[], none, none, true, MonitorEnd.naturalExit, [], none⟩) ∧
    Ev.slept 3 ∈ evsOf (cycle ⟨[], -1, false, false, [], false⟩
        ⟨[], none, none, true, MonitorEnd.naturalExit, [], none⟩) ∧
    (cycle ⟨[], -1, false, false, [], false⟩
        ⟨[], none, none, true, MonitorEnd.naturalExit, [], none⟩).exited = false := by
  decide

/-- C3 counterexample: `SkipTo(5)` on a 3-item playlist: the code's
normalization wraps any index `>= len` to 0, so the resulting 0-based index
is 0, not `(5-1) mod 3 = 1` as the claim states. -/
theorem c3_counterexample :
    normIndex (applyCmd 0 (Cmd.skip 5)) 3 ≠ ((5 : Int) - 1) % 3 ∧
    normIndex (applyCmd 0 (Cmd.skip 5)) 3 = 0 := by
  decide

/-- C3 amended: for `n ≥ 1` on a non-empty playlist, `SkipTo(n)` followed
by normalization yields 0-based index `n - 1` when `n - 1 < len` and 0
otherwise (so it equals `(n-1) mod len` exactly when `n ≤ len`), and
repeating the identical skip from any starting index yields the same
index. -/
theorem c3_skip_normalized (n len : Nat) (j j' : Int)
    (h1 : 1 ≤ n) (h2 : 0 < len) :
    (normIndex (applyCmd j (Cmd.skip n)) len =
      if ((n : Int) - 1) < (len : Int) then (n : Int) - 1 else 0) ∧
    (n ≤ len →
      normIndex (applyCmd j (Cmd.skip n)) len = ((n : Int) - 1) % (len : Int)) ∧
    normIndex (applyCmd j' (Cmd.skip n)) len = normIndex (applyCmd j (Cmd.skip n)) len := by
  have ha : ∀ k : Int, applyCmd k (Cmd.skip n) = (n : Int) - 1 := fun _ => rfl
  rw [ha, ha]
  refine ⟨?_, ?_, rfl⟩
  · unfold normIndex
    split_ifs <;> omega
  · intro hnl
    have hmod : ((n : Int) - 1) % (len : Int) = (n : Int) - 1 :=
      Int.emod_eq_of_lt (by omega) (by omega)
    rw [hmod]
    unfold normIndex
    split_ifs <;> omega

/-- C3 witness: skipping to video 2 of 3 lands on 0-based index 1. -/
theorem c3_skip_normalized_witness :
    normIndex (applyCmd 0 (Cmd.skip 2)) 3 =
      if ((2 : Int) - 1) < (3 : Int) then (2 : Int) - 1 else 0 :=
  (c3_skip_normalized 2 3 0 5 (by decide) (by decide)).1

/-- C4: for any starting index and any sequence of `next`/`prev`/`skip`
commands, the index after normalization lies in `[0, len)` whenever the
playlist is non-empty, and normalization wraps an index `>= len` to 0 and a
negative index to `len - 1` — it is total and never signals
out-of-range. -/
theorem c4_index_in_range (i : Int) (len : Nat) (cmds : List Cmd)
    (hlen : 0 < len) (hc : ∀ c ∈ cmds, c ≠ Cmd.stop) :
    (0 ≤ normIndex (cmds.foldl applyCmd i) len ∧
      normIndex (cmds.foldl applyCmd i) len < (len : Int)) ∧
    ((len : Int) ≤ cmds.foldl applyCmd i →
      normIndex (cmds.foldl applyCmd i) len = 0) ∧
    (cmds.foldl applyCmd i < 0 →
      normIndex (cmds.foldl applyCmd i) len = (len : Int) - 1) := by
  generalize cmds.foldl applyCmd i = f
  unfold normIndex
  refine ⟨?_, ?_, ?_⟩ <;> split_ifs <;> omega

/-- C4 witness: a concrete command sequence on a 3-item playlist. -/
theorem c4_index_in_range_witness :
    0 ≤ normIndex ([Cmd.next, Cmd.prev, Cmd.skip 7].foldl applyCmd 0) 3 :=
  ((c4_index_in_range 0 3 [Cmd.next, Cmd.prev, Cmd.skip 7]
    (by decide) (by decide)).1).1

/-- C9: any quality key absent from `QUALITY_PRESETS` yields, without
error, exactly the configuration obtained from the `"720p"` preset: same
format selector, resolution `1280x720`, and bitrate `2500k`. -/
theorem c9_quality_fallback (url key : String)
    (h : lookupPreset key = none) :
    initConfig url key = initConfig url "720p" ∧
    (initConfig url key).format =
      "bestvideo[height<=720]+bestaudio/best[height<=720]" ∧
    (initConfig url key).resolution = "1280x720" ∧
    (initConfig url key).bitrate = "2500k" := by
  have h1 : initConfig url key = initConfig url "720p" := by
    unfold initConfig
    rw [h]
    simp
  refine ⟨h1, ?_, ?_, ?_⟩ <;> rw [h1] <;> rfl

/-- C9 witness: the unknown key `"9999p"` falls back to the 720p preset. -/
theorem c9_quality_fallback_witness :
    (initConfig "http://u" "9999p").resolution = "1280x720" :=
  (c9_quality_fallback "http://u" "9999p" (by rfl)).2.2.1

/-- C10: in each iteration of `_wait_for_stream`'s polling loop, the
two-file readiness check precedes the process-exit check: if the manifest
and first chunk are both observed ready in an iteration, the loop returns
true even when that iteration also observes that the process has exited;
the premature-exit false return happens only in an iteration where the two
files are not yet both ready. -/
theorem c10_wait_order (m t : Bool) (o : Obs) (rest : List Obs) :
    (((m || o.m3u8) && (t || o.ts)) = true →
      waitLoop m t (o :: rest) = true) ∧
    (o.procExited = true → ((m || o.m3u8) && (t || o.ts)) = false →
      waitLoop m t (o :: rest) = false) := by
  constructor
  · intro h
    unfold waitLoop
    simp [h]
  · intro h1 h2
    unfold waitLoop
    simp [h1, h2]

/-- C10 witness: both files ready in an iteration where the process has
already exited: `_wait_for_stream` still returns true. -/
theorem c10_wait_order_witness :
    waitLoop false false [⟨true, true, true⟩] = true :=
  (c10_wait_order false false ⟨true, true, true⟩ []).1 (by decide)

/-- C5 counterexample: a full successful cycle (media resolved, startup
probe succeeded, process then exits naturally): immediately after the
process termination the readiness flag is still true — the code clears
readiness only just before the next launch, not at termination. -/
theorem c5_counterexample :
    (Ev.procExited, true) ∈ (cycle ⟨["A"], 0, false, false, [], false⟩
      ⟨[], some "v", some "a", true, MonitorEnd.naturalExit, [], none⟩).trace := by
  decide

/-- C6 counterexample: playlist `[A, B]` at index 0 with a queued `next`
command: the cycle drains `next` (index becomes 1), plays video B, the
process ends naturally with an empty channel and no stop pending — yet the
index stays 1 rather than advancing by +1, because the drained command
suppresses the auto-advance. -/
theorem c6_counterexample :
    (cycle ⟨["A", "B"], 0, false, false, [Cmd.next], false⟩
      ⟨[], some "v", some "a", true, MonitorEnd.naturalExit, [], none⟩).state.currentIndex = 1 ∧
    Ev.procExited ∈ evsOf (cycle ⟨["A", "B"], 0, false, false, [Cmd.next], false⟩
      ⟨[], some "v", some "a", true, MonitorEnd.naturalExit, [], none⟩) ∧
    (cycle ⟨["A", "B"], 0, false, false, [Cmd.next], false⟩
      ⟨[], some "v", some "a", true, MonitorEnd.naturalExit, [], none⟩).state.queue = [] ∧
    (cycle ⟨["A", "B"], 0, false, false, [Cmd.next], false⟩
      ⟨[], some "v", some "a", true, MonitorEnd.naturalExit, [], none⟩).state.stopEvent = false ∧
    (cycle ⟨["A", "B"], 0, false, false, [Cmd.next], false⟩
      ⟨[], some "v", some "a", true, MonitorEnd.naturalExit, [], none⟩).state.currentIndex ≠ 1 + 1 := by
  decide

/-! ## Readiness-discipline lemmas -/

theorem noSpuriousRise_append (r : Bool) (t1 t2 : List (Ev × Bool)) :
    noSpuriousRise r (t1 ++ t2) =
      (noSpuriousRise r t1 && noSpuriousRise (lastReady r t1) t2) := by
  induction t1 generalizing r with
  | nil => simp [noSpuriousRise, lastReady]
  | cons p rest ih =>
      obtain ⟨ev, r1⟩ := p
      simp [noSpuriousRise, lastReady, ih, Bool.and_assoc]

theorem lastReady_append (r : Bool) (t1 t2 : List (Ev × Bool)) :
    lastReady r (t1 ++ t2) = lastReady (lastReady r t1) t2 := by
  induction t1 generalizing r with
  | nil => simp [lastReady]
  | cons p rest ih =>
      obtain ⟨ev, r1⟩ := p
      simp [lastReady, ih]

theorem launchedNotReady_append (t1 t2 : List (Ev × Bool)) :
    launchedNotReady (t1 ++ t2) =
      (launchedNotReady t1 && launchedNotReady t2) := by
  simp [launchedNotReady, List.all_append]

theorem bool_step_same (x : Bool) : (!x && x) = false := by
  cases x <;> rfl

theorem noSpuriousRise_nil (r : Bool) : noSpuriousRise r [] = true := rfl

theorem noSpuriousRise_cons (r r1 : Bool) (ev : Ev) (ts : List (Ev × Bool)) :
    noSpuriousRise r ((ev, r1) :: ts) =
      (((!(!r && r1)) || isReadyRise ev) && noSpuriousRise r1 ts) := rfl

theorem lastReady_nil (r : Bool) : lastReady r [] = r := rfl

theorem lastReady_cons (r r1 : Bool) (ev : Ev) (ts : List (Ev × Bool)) :
    lastReady r ((ev, r1) :: ts) = lastReady r1 ts := rfl

theorem launchedNotReady_nil : launchedNotReady [] = true := rfl

theorem launchedNotReady_cons (p : Ev × Bool) (ts : List (Ev × Bool)) :
    launchedNotReady (p :: ts) = (launchOk p && launchedNotReady ts) := rfl

theorem finallyBlock_ready_inv (s : WState) (c : Option Cmd)
    (tr : List (Ev × Bool)) (ex : Bool) (r : Bool)
    (h1 : noSpuriousRise r tr = true) (h2 : lastReady r tr = s.ready)
    (h3 : launchedNotReady tr = true) :
    noSpuriousRise r (finallyBlock s c tr ex).trace = true ∧
    launchedNotReady (finallyBlock s c tr ex).trace = true := by
  unfold finallyBlock
  dsimp only
  split <;> split <;> split <;>
    simp [noSpuriousRise_append, lastReady_append, noSpuriousRise_cons,
      noSpuriousRise_nil, lastReady_cons, lastReady_nil, isReadyRise,
      launchedNotReady_append, launchedNotReady_cons, launchedNotReady_nil,
      launchOk, bool_step_same, h1, h2, h3]

theorem exceptBlock_ready_inv (s : WState) (c : Option Cmd)
    (tr : List (Ev × Bool)) (r : Bool)
    (h1 : noSpuriousRise r tr = true) (h2 : lastReady r tr = s.ready)
    (h3 : launchedNotReady tr = true) :
    noSpuriousRise r (exceptBlock s c tr).trace = true ∧
    launchedNotReady (exceptBlock s c tr).trace = true := by
  unfold exceptBlock
  dsimp only
  split <;>
    (apply finallyBlock_ready_inv <;>
      simp [noSpuriousRise_append, lastReady_append, noSpuriousRise_cons,
        noSpuriousRise_nil, lastReady_cons, lastReady_nil, isReadyRise,
        launchedNotReady_append, launchedNotReady_cons, launchedNotReady_nil,
        launchOk, bool_step_same, h1, h2, h3])

theorem stageMonitor_ready_inv (s : WState) (e : CycleEnv) (c : Option Cmd)
    (tr : List (Ev × Bool)) (r : Bool)
    (h1 : noSpuriousRise r tr = true) (h2 : lastReady r tr = s.ready)
    (h3 : launchedNotReady tr = true) :
    noSpuriousRise r (stageMonitor s e c tr).trace = true ∧
    launchedNotReady (stageMonitor s e c tr).trace = true := by
  unfold stageMonitor
  dsimp only
  cases e.monitor <;>
    (apply finallyBlock_ready_inv <;>
      simp [noSpuriousRise_append, lastReady_append, noSpuriousRise_cons,
        noSpuriousRise_nil, lastReady_cons, lastReady_nil, isReadyRise,
        launchedNotReady_append, launchedNotReady_cons, launchedNotReady_nil,
        launchOk, bool_step_same, h1, h2, h3])

theorem stageStart_ready_inv (s : WState) (e : CycleEnv) (c : Option Cmd)
    (tr : List (Ev × Bool)) (r : Bool)
    (h1 : noSpuriousRise r tr = true) (h2 : lastReady r tr = s.ready)
    (h3 : launchedNotReady tr = true) :
    noSpuriousRise r (stageStart s e c tr).trace = true ∧
    launchedNotReady (stageStart s e c tr).trace = true := by
  unfold stageStart
  dsimp only
  split
  · apply exceptBlock_ready_inv <;>
      simp [noSpuriousRise_append, lastReady_append, noSpuriousRise_cons,
        noSpuriousRise_nil, lastReady_cons, lastReady_nil, isReadyRise,
        launchedNotReady_append, launchedNotReady_cons, launchedNotReady_nil,
        launchOk, bool_step_same, h1, h2, h3]
  · split
    · split
      · apply exceptBlock_ready_inv <;>
          simp [noSpuriousRise_append, lastReady_append, noSpuriousRise_cons,
            noSpuriousRise_nil, lastReady_cons, lastReady_nil, isReadyRise,
            launchedNotReady_append, launchedNotReady_cons, launchedNotReady_nil,
            launchOk, bool_step_same, h1, h2, h3]
      · apply stageMonitor_ready_inv <;>
          simp [noSpuriousRise_append, lastReady_append, noSpuriousRise_cons,
            noSpuriousRise_nil, lastReady_cons, lastReady_nil, isReadyRise,
            launchedNotReady_append, launchedNotReady_cons, launchedNotReady_nil,
            launchOk, bool_step_same, h1, h2, h3]
    · apply finallyBlock_ready_inv <;>
        simp [noSpuriousRise_append, lastReady_append, noSpuriousRise_cons,
          noSpuriousRise_nil, lastReady_cons, lastReady_nil, isReadyRise,
          launchedNotReady_append, launchedNotReady_cons, launchedNotReady_nil,
          launchOk, bool_step_same, h1, h2, h3]

theorem stageMedia_ready_inv (s : WState) (e : CycleEnv) (c : Option Cmd)
    (tr : List (Ev × Bool)) (r : Bool)
    (h1 : noSpuriousRise r tr = true) (h2 : lastReady r tr = s.ready)
    (h3 : launchedNotReady tr = true) :
    noSpuriousRise r (stageMedia s e c tr).trace = true ∧
    launchedNotReady (stageMedia s e c tr).trace = true := by
  unfold stageMedia
  split
  · exact exceptBlock_ready_inv s c tr r h1 h2 h3
  · split
    · exact finallyBlock_ready_inv s (some Cmd.next) tr false r h1 h2 h3
    · exact stageStart_ready_inv s e c tr r h1 h2 h3

theorem stageNorm_ready_inv (s : WState) (e : CycleEnv) (c : Option Cmd)
    (tr : List (Ev × Bool)) (r : Bool)
    (h1 : noSpuriousRise r tr = true) (h2 : lastReady r tr = s.ready)
    (h3 : launchedNotReady tr = true) :
    noSpuriousRise r (stageNorm s e c tr).trace = true ∧
    launchedNotReady (stageNorm s e c tr).trace = true := by
  unfold stageNorm
  exact stageMedia_ready_inv _ e c tr r h1 h2 h3

theorem stagePlaylist_ready_inv (s : WState) (e : CycleEnv) (c : Option Cmd)
    (tr : List (Ev × Bool)) (r : Bool)
    (h1 : noSpuriousRise r tr = true) (h2 : lastReady r tr = s.ready)
    (h3 : launchedNotReady tr = true) :
    noSpuriousRise r (stagePlaylist s e c tr).trace = true ∧
    launchedNotReady (stagePlaylist s e c tr).trace = true := by
  unfold stagePlaylist
  dsimp only
  split
  · split
    · apply finallyBlock_ready_inv <;>
        simp [noSpuriousRise_append, lastReady_append, noSpuriousRise_cons,
          noSpuriousRise_nil, lastReady_cons, lastReady_nil, isReadyRise,
          launchedNotReady_append, launchedNotReady_cons, launchedNotReady_nil,
          launchOk, bool_step_same, h1, h2, h3]
    · split <;>
        (apply stageNorm_ready_inv <;> simp_all)
  · exact stageNorm_ready_inv s e c tr r h1 h2 h3

/-- C5 amended: in every cycle, from every state, the readiness flag is
false at every process launch (it was cleared just before), and it rises
from false to true only at a successful startup probe (`setReady`) or at
the forced set on worker exit (`exitReadySet`).  In particular a process
termination never makes readiness true, but — as `c5_counterexample`
shows — it does not clear it either: readiness keeps its prior value until
the next attempt's pre-launch clear. -/
theorem c5_ready_discipline (s : WState) (e : CycleEnv) :
    noSpuriousRise s.ready (cycle s e).trace = true ∧
    launchedNotReady (cycle s e).trace = true := by
  unfold cycle
  split
  · constructor <;>
      simp [noSpuriousRise_cons, noSpuriousRise_nil, isReadyRise,
        launchedNotReady_cons, launchedNotReady_nil, launchOk, bool_step_same]
  · split
    · exact stagePlaylist_ready_inv s e none [] s.ready rfl rfl rfl
    · apply finallyBlock_ready_inv <;>
        simp [noSpuriousRise_cons, noSpuriousRise_nil, lastReady_cons,
          lastReady_nil, isReadyRise, launchedNotReady_cons,
          launchedNotReady_nil, launchOk, bool_step_same]
    · apply stagePlaylist_ready_inv <;>
        simp [noSpuriousRise_cons, noSpuriousRise_nil, lastReady_cons,
          lastReady_nil, isReadyRise, launchedNotReady_cons,
          launchedNotReady_nil, launchOk, bool_step_same]

theorem normIndex_mem (i : Int) (len : Nat) (h : 0 < len) :
    0 ≤ normIndex i len ∧ normIndex i len < (len : Int) := by
  unfold normIndex
  split_ifs <;> omega

theorem normIndex_succ (i : Int) (len : Nat) (h : 0 < len) :
    normIndex (normIndex i len + 1) len = (normIndex i len + 1) % (len : Int) := by
  obtain ⟨h0, h1⟩ := normIndex_mem i len h
  set k := normIndex i len with hk
  by_cases hlt : k + 1 < (len : Int)
  · rw [Int.emod_eq_of_lt (by omega) hlt]
    unfold normIndex
    split_ifs <;> omega
  · have hke : k + 1 = (len : Int) := by omega
    rw [hke, Int.emod_self]
    unfold normIndex
    split_ifs <;> omega

/-- C6 amended: when a video's transcode process ends naturally with an
empty command channel and no stop pending, **and no command was applied at
the top of that cycle** (the command queue was empty when the cycle began),
the worker advances the index by exactly +1 over the index of the video it
played, and the next cycle's normalization turns that into
`(played + 1) mod len`. -/
theorem c6_natural_advance (pl : List String) (i : Int) (rdy pr : Bool)
    (e : CycleEnv) (hpl : pl ≠ [])
    (hv : optFalsy e.mediaV = false) (ha : optFalsy e.mediaA = false)
    (hst : e.startupOk = true) (hexc : e.excPhase = none)
    (hm : e.monitor = MonitorEnd.naturalExit) (harr : e.arrivals = []) :
    (cycle ⟨pl, i, rdy, pr, [], false⟩ e).state.currentIndex =
      normIndex i pl.length + 1 ∧
    normIndex (cycle ⟨pl, i, rdy, pr, [], false⟩ e).state.currentIndex pl.length =
      (normIndex i pl.length + 1) % (pl.length : Int) := by
  have hres : (cycle ⟨pl, i, rdy, pr, [], false⟩ e).state.currentIndex =
      normIndex i pl.length + 1 := by
    simp [cycle, stagePlaylist, stageNorm, stageMedia, stageStart, stageMonitor,
      finallyBlock, hpl, hv, ha, hst, hexc, hm, harr]
  refine ⟨hres, ?_⟩
  rw [hres]
  exact normIndex_succ i pl.length (by
    cases pl with
    | nil => exact absurd rfl hpl
    | cons a tl => simp)

/-- C6 witness: playlist `[A, B]`, index 0, empty queue, clean natural
end: the index advances to 1. -/
theorem c6_natural_advance_witness :
    (cycle ⟨["A", "B"], 0, false, false, [], false⟩
      ⟨[], some "v", some "a", true, MonitorEnd.naturalExit, [], none⟩).state.currentIndex =
      normIndex 0 (["A", "B"] : List String).length + 1 :=
  (c6_natural_advance ["A", "B"] 0 false false
    ⟨[], some "v", some "a", true, MonitorEnd.naturalExit, [], none⟩
    (by decide) rfl rfl rfl rfl rfl rfl).1

theorem cycle_drain_head (pl : List String) (i : Int) (rdy pr : Bool)
    (c : Cmd) (cs : List Cmd) (e' : CycleEnv) :
    ((cycle ⟨pl, i, rdy, pr, c :: cs, false⟩ e').trace).head? =
      some (Ev.drained c, rdy) := by
  cases c with
  | stop =>
      show ((finallyBlock ⟨pl, i, rdy, pr, cs, false⟩ none
        [(Ev.drained Cmd.stop, rdy)] true).trace).head? = _
      unfold finallyBlock
      dsimp only
      split <;> split <;> split <;> rfl
  | next =>
      obtain ⟨tl, htl⟩ := stagePlaylist_trace_ext
        ⟨pl, applyCmd i Cmd.next, rdy, pr, cs, false⟩ e' (some Cmd.next)
        [(Ev.drained Cmd.next, rdy)]
      show ((stagePlaylist ⟨pl, applyCmd i Cmd.next, rdy, pr, cs, false⟩ e'
        (some Cmd.next) [(Ev.drained Cmd.next, rdy)]).trace).head? = _
      rw [htl]
      rfl
  | prev =>
      obtain ⟨tl, htl⟩ := stagePlaylist_trace_ext
        ⟨pl, applyCmd i Cmd.prev, rdy, pr, cs, false⟩ e' (some Cmd.prev)
        [(Ev.drained Cmd.prev, rdy)]
      show ((stagePlaylist ⟨pl, applyCmd i Cmd.prev, rdy, pr, cs, false⟩ e'
        (some Cmd.prev) [(Ev.drained Cmd.prev, rdy)]).trace).head? = _
      rw [htl]
      rfl
  | skip n =>
      obtain ⟨tl, htl⟩ := stagePlaylist_trace_ext
        ⟨pl, applyCmd i (Cmd.skip n), rdy, pr, cs, false⟩ e' (some (Cmd.skip n))
        [(Ev.drained (Cmd.skip n), rdy)]
      show ((stagePlaylist ⟨pl, applyCmd i (Cmd.skip n), rdy, pr, cs, false⟩ e'
        (some (Cmd.skip n)) [(Ev.drained (Cmd.skip n), rdy)]).trace).head? = _
      rw [htl]
      rfl

/-- C7: a command arriving in the channel while a video is in the live
monitoring phase causes the running process to be terminated; the command
stays queued (the final queue is exactly the arrivals), the index is not
auto-advanced beyond the normalized index of the video that was playing,
the loop does not exit, and at the top of the next cycle that command is
the first thing drained. -/
theorem c7_command_during_live (pl : List String) (i : Int) (rdy pr : Bool)
    (e : CycleEnv) (c : Cmd) (cs : List Cmd)
    (hpl : pl ≠ [])
    (hv : optFalsy e.mediaV = false) (ha : optFalsy e.mediaA = false)
    (hst : e.startupOk = true) (hexc : e.excPhase = none)
    (hm : e.monitor = MonitorEnd.cmdDetected) (harr : e.arrivals = c :: cs) :
    Ev.procTerminated ∈ evsOf (cycle ⟨pl, i, rdy, pr, [], false⟩ e) ∧
    (cycle ⟨pl, i, rdy, pr, [], false⟩ e).state.queue = c :: cs ∧
    (cycle ⟨pl, i, rdy, pr, [], false⟩ e).state.currentIndex =
      normIndex i pl.length ∧
    (cycle ⟨pl, i, rdy, pr, [], false⟩ e).exited = false ∧
    (∀ e', ((cycle (cycle ⟨pl, i, rdy, pr, [], false⟩ e).state e').trace).head? =
      some (Ev.drained c, true)) := by
  have hstate : (cycle ⟨pl, i, rdy, pr, [], false⟩ e).state =
      ⟨pl, normIndex i pl.length, true, false, c :: cs, false⟩ := by
    simp [cycle, stagePlaylist, stageNorm, stageMedia, stageStart, stageMonitor,
      finallyBlock, hpl, hv, ha, hst, hexc, hm, harr]
  refine ⟨?_, ?_, ?_, ?_, ?_⟩
  · simp [cycle, stagePlaylist, stageNorm, stageMedia, stageStart, stageMonitor,
      finallyBlock, evsOf, hpl, hv, ha, hst, hexc, hm, harr]
  · rw [hstate]
  · rw [hstate]
  · simp [cycle, stagePlaylist, stageNorm, stageMedia, stageStart, stageMonitor,
      finallyBlock, hpl, hv, ha, hst, hexc, hm, harr]
  · intro e'
    rw [hstate]
    exact cycle_drain_head pl (normIndex i pl.length) true false c cs e'

/-- C7 witness: a `next` command arriving while video A of `[A, B]` is
live terminates the process and stays queued. -/
theorem c7_command_during_live_witness :
    (cycle ⟨["A", "B"], 0, true, false, [], false⟩
      ⟨[], some "v", some "a", true, MonitorEnd.cmdDetected, [Cmd.next], none⟩).state.queue =
      [Cmd.next] :=
  (c7_command_during_live ["A", "B"] 0 true false
    ⟨[], some "v", some "a", true, MonitorEnd.cmdDetected, [Cmd.next], none⟩
    Cmd.next [] (by decide) rfl rfl rfl rfl rfl rfl).2.1

theorem cycle_exit_iff (s : WState) (e : CycleEnv) :
    ((cycle s e).exited = true ↔
      (s.stopEvent = true ∨ s.queue.head? = some Cmd.stop)) ∧
    ((cycle s e).exited = true → (cycle s e).state.ready = true) := by
  unfold cycle
  split
  · simp_all
  · rename_i hse
    split
    · rename_i hq
      constructor
      · rw [stagePlaylist_exited]
        simp [hse, hq]
      · rw [stagePlaylist_exited]
        simp
    · rename_i hq
      constructor
      · rw [finallyBlock_exited]
        simp [hq]
      · intro hx
        exact finallyBlock_ready_exit ..
    · rename_i hne hq
      constructor
      · rw [stagePlaylist_exited]
        apply iff_of_false
        · simp
        · rintro (h1 | h2)
          · exact hse h1
          · rw [hq] at h2
            simp only [List.head?_cons, Option.some.injEq] at h2
            exact hne h2
      · rw [stagePlaylist_exited]
        simp

theorem exceptBlock_mem (s : WState) (c : Option Cmd) (tr : List (Ev × Bool)) :
    Ev.excCaught ∈ evsOf (exceptBlock s c tr) ∧
    Ev.slept 10 ∈ evsOf (exceptBlock s c tr) ∧
    (s.proc = true → Ev.procTerminated ∈ evsOf (exceptBlock s c tr)) := by
  unfold exceptBlock evsOf
  dsimp only
  split
  · obtain ⟨tl, htl⟩ := finallyBlock_trace_ext s c
      (((tr ++ [(Ev.excCaught, s.ready)]) ++ [(Ev.procTerminated, s.ready)]) ++
        [(Ev.slept 10, s.ready)]) false
    rw [htl]
    simp
  · rename_i hp
    obtain ⟨tl, htl⟩ := finallyBlock_trace_ext s c
      ((tr ++ [(Ev.excCaught, s.ready)]) ++ [(Ev.slept 10, s.ready)]) false
    rw [htl]
    simp [hp]

theorem stage_exc_mem (s : WState) (e : CycleEnv) (cmd : Option Cmd)
    (tr : List (Ev × Bool)) (p : EPhase)
    (hexc : e.excPhase = some p) (hpl : s.playlist ≠ [])
    (hreach : p ≠ EPhase.mediaPh →
      optFalsy e.mediaV = false ∧ optFalsy e.mediaA = false ∧
        (p = EPhase.monitorPh → e.startupOk = true)) :
    Ev.excCaught ∈ evsOf (stagePlaylist s e cmd tr) ∧
    Ev.slept 10 ∈ evsOf (stagePlaylist s e cmd tr) ∧
    (p ≠ EPhase.mediaPh →
      Ev.procTerminated ∈ evsOf (stagePlaylist s e cmd tr)) := by
  cases p with
  | mediaPh =>
      have hred : stagePlaylist s e cmd tr =
          exceptBlock
            { s with currentIndex := normIndex s.currentIndex s.playlist.length }
            cmd tr := by
        simp [stagePlaylist, stageNorm, stageMedia, hexc, hpl]
      rw [hred]
      refine ⟨(exceptBlock_mem _ _ _).1, (exceptBlock_mem _ _ _).2.1, ?_⟩
      intro hcon
      exact absurd rfl hcon
  | waitPh =>
      obtain ⟨hv, ha, -⟩ := hreach (by simp)
      have hred : stagePlaylist s e cmd tr =
          exceptBlock
            { s with
              currentIndex := normIndex s.currentIndex s.playlist.length,
              ready := false,
              proc := true }
            cmd
            (tr ++ [(Ev.cleanedDir, s.ready), (Ev.clearedReady, false),
              (Ev.launched, false)]) := by
        simp [stagePlaylist, stageNorm, stageMedia, stageStart, hexc, hpl, hv, ha]
      rw [hred]
      exact ⟨(exceptBlock_mem _ _ _).1, (exceptBlock_mem _ _ _).2.1,
        fun _ => (exceptBlock_mem _ _ _).2.2 rfl⟩
  | monitorPh =>
      obtain ⟨hv, ha, hso⟩ := hreach (by simp)
      have hst : e.startupOk = true := hso rfl
      have hred : stagePlaylist s e cmd tr =
          exceptBlock
            { s with
              currentIndex := normIndex s.currentIndex s.playlist.length,
              ready := true,
              proc := true }
            cmd
            ((tr ++ [(Ev.cleanedDir, s.ready), (Ev.clearedReady, false),
              (Ev.launched, false)]) ++ [(Ev.setReady, true)]) := by
        simp [stagePlaylist, stageNorm, stageMedia, stageStart, hexc, hpl, hv,
          ha, hst]
      rw [hred]
      exact ⟨(exceptBlock_mem _ _ _).1, (exceptBlock_mem _ _ _).2.1,
        fun _ => (exceptBlock_mem _ _ _).2.2 rfl⟩

/-- C8: with an exception raised at any modeled point of a cycle (during
media resolution, during the startup probe, or during live monitoring), the
cycle catches it, sleeps the ~10s backoff, terminates the active process
when one is live, and does not exit the loop; in general the loop exits
exactly when the stop event is set or a `stop` command is at the head of
the queue, and on exit the readiness signal is forced true. -/
theorem c8_exception_resilience (s : WState) (e : CycleEnv) (p : EPhase)
    (hexc : e.excPhase = some p) (hstop : s.stopEvent = false)
    (hq : s.queue.head? ≠ some Cmd.stop) (hpl : s.playlist ≠ [])
    (hreach : p ≠ EPhase.mediaPh →
      optFalsy e.mediaV = false ∧ optFalsy e.mediaA = false ∧
        (p = EPhase.monitorPh → e.startupOk = true)) :
    (cycle s e).exited = false ∧
    Ev.excCaught ∈ evsOf (cycle s e) ∧
    Ev.slept 10 ∈ evsOf (cycle s e) ∧
    (p ≠ EPhase.mediaPh → Ev.procTerminated ∈ evsOf (cycle s e)) ∧
    (∀ s' e', ((cycle s' e').exited = true ↔
        (s'.stopEvent = true ∨ s'.queue.head? = some Cmd.stop)) ∧
      ((cycle s' e').exited = true → (cycle s' e').state.ready = true)) := by
  have hex : (cycle s e).exited = false := by
    cases hcyc : (cycle s e).exited with
    | false => rfl
    | true =>
        rcases ((cycle_exit_iff s e).1).mp hcyc with h1 | h2
        · rw [hstop] at h1
          exact absurd h1 (by simp)
        · exact absurd h2 hq
  have hmem : Ev.excCaught ∈ evsOf (cycle s e) ∧
      Ev.slept 10 ∈ evsOf (cycle s e) ∧
      (p ≠ EPhase.mediaPh → Ev.procTerminated ∈ evsOf (cycle s e)) := by
    obtain ⟨pl, i, rdy, pr, q, se⟩ := s
    dsimp only at hstop hq hpl
    subst hstop
    cases q with
    | nil =>
        have hr : cycle ⟨pl, i, rdy, pr, [], false⟩ e =
            stagePlaylist ⟨pl, i, rdy, pr, [], false⟩ e none [] := rfl
        rw [hr]
        exact stage_exc_mem _ e none [] p hexc hpl hreach
    | cons c rest =>
        have hc : c ≠ Cmd.stop := by
          intro hcc
          rw [hcc] at hq
          exact hq rfl
        cases c with
        | stop => exact absurd rfl hc
        | next =>
            have hr : cycle ⟨pl, i, rdy, pr, Cmd.next :: rest, false⟩ e =
                stagePlaylist ⟨pl, applyCmd i Cmd.next, rdy, pr, rest, false⟩ e
                  (some Cmd.next) [(Ev.drained Cmd.next, rdy)] := rfl
            rw [hr]
            exact stage_exc_mem _ e _ _ p hexc hpl hreach
        | prev =>
            have hr : cycle ⟨pl, i, rdy, pr, Cmd.prev :: rest, false⟩ e =
                stagePlaylist ⟨pl, applyCmd i Cmd.prev, rdy, pr, rest, false⟩ e
                  (some Cmd.prev) [(Ev.drained Cmd.prev, rdy)] := rfl
            rw [hr]
            exact stage_exc_mem _ e _ _ p hexc hpl hreach
        | skip n =>
            have hr : cycle ⟨pl, i, rdy, pr, Cmd.skip n :: rest, false⟩ e =
                stagePlaylist ⟨pl, applyCmd i (Cmd.skip n), rdy, pr, rest, false⟩ e
                  (some (Cmd.skip n)) [(Ev.drained (Cmd.skip n), rdy)] := rfl
            rw [hr]
            exact stage_exc_mem _ e _ _ p hexc hpl hreach
  exact ⟨hex, hmem.1, hmem.2.1, hmem.2.2, fun s' e' => cycle_exit_iff s' e'⟩

/-- C8 witness: an exception during live monitoring of the only video of a
one-item playlist is absorbed — the loop does not exit. -/
theorem c8_exception_resilience_witness :
    (cycle ⟨["A"], 0, false, false, [], false⟩
      ⟨[], some "v", some "a", true, MonitorEnd.naturalExit, [],
        some EPhase.monitorPh⟩).exited = false :=
  (c8_exception_resilience ⟨["A"], 0, false, false, [], false⟩
    ⟨[], some "v", some "a", true, MonitorEnd.naturalExit, [],
      some EPhase.monitorPh⟩ EPhase.monitorPh rfl rfl (by decide) (by decide)
    (fun _ => ⟨rfl, rfl, fun _ => rfl⟩)).1
